import Mathlib

/-!
Shallow embedding of the WHAMO network editor core (the zustand store and the
.inp file emitter of `generateInpFile`), translated from the TypeScript source.
Numeric fields of the JavaScript runtime are modelled as exact rationals; a
JavaScript number that may be NaN is modelled by `JsNum`, and an optional
(possibly `undefined`) field by `Option`.  String rendering of numbers
(`toFixed`, template interpolation) is modelled for the terminating decimal
values the editor produces.
-/

namespace Whamo

attribute [local semireducible] Rat.mul Rat.add Rat.inv Rat.sub Rat.ofScientific

/-- The two unit systems of the editor (`UnitSystem` in store.ts). -/
inductive UnitSystem
  | SI
  | FPS
deriving DecidableEq

/-- Node kinds (the `NodeType` of the shared schema as used by the store and emitter). -/
inductive NodeType
  | reservoir
  | node
  | junction
  | surgeTank
  | flowBoundary
deriving DecidableEq

/-- Edge kinds (`LinkType`). -/
inductive LinkType
  | conduit
  | dummy
deriving DecidableEq

/-- Output request type. -/
inductive RequestType
  | HISTORY
  | PLOT
  | SPREADSHEET
deriving DecidableEq

/-- The string key used for an output request type (the literal union values). -/
def RequestType.render : RequestType → String
  | .HISTORY => "HISTORY"
  | .PLOT => "PLOT"
  | .SPREADSHEET => "SPREADSHEET"

/-- Element discriminator of an output request and of deleteElement. -/
inductive ElemType
  | node
  | edge
deriving DecidableEq

/-- A JavaScript number that is either NaN or an exact rational value. -/
inductive JsNum
  | nan
  | num (q : ℚ)
deriving DecidableEq

/-- The JavaScript coercion `Number(x)` applied to a possibly-undefined numeric
field: `undefined` becomes NaN, a number stays itself. -/
def jsNumber : Option ℚ → JsNum
  | none => .nan
  | some q => .num q

/-- Multiplication of a JavaScript number by a (finite) constant factor. -/
def JsNum.mul : JsNum → ℚ → JsNum
  | .nan, _ => .nan
  | .num q, f => .num (q * f)

/-- Rounding to the nearest integer with ties away from zero, which is how
JavaScript `toFixed` rounds the decimal scaled value. -/
def jsRound (q : ℚ) : ℤ := if 0 ≤ q then round q else -round (-q)

/-- Left-pads the decimal digits of `n` with zeros to width `k`. -/
def natPad (k : ℕ) (n : ℕ) : String :=
  let s := toString n
  String.mk (List.replicate (k - s.length) '0') ++ s

/-- Rendering of a finite JavaScript number by `toFixed(2)`. -/
def toFixed2Rat (q : ℚ) : String :=
  let n := jsRound (q * 100)
  (if n < 0 then "-" else "") ++ toString (n.natAbs / 100) ++ "." ++ natPad 2 (n.natAbs % 100)

/-- JavaScript `value.toFixed(2)`; NaN renders as the string NaN. -/
def JsNum.toFixed2 : JsNum → String
  | .nan => "NaN"
  | .num q => toFixed2Rat q

/-- Least exponent `k` (searched up to 64) with `d ∣ 10 ^ k`; every numeric value
appearing in the editor has a terminating decimal expansion, for which this is
the length of its fractional part. -/
def decExp (d : ℕ) : ℕ := ((List.range 65).find? (fun k => decide (d ∣ 10 ^ k))).getD 0

/-- Template interpolation of a finite JavaScript number, exact for numbers with
a terminating decimal expansion (all values the editor stores). -/
def jsToString (q : ℚ) : String :=
  let k := decExp q.den
  let m := q.num.natAbs * (10 ^ k / q.den)
  (if q < 0 then "-" else "") ++
    (if k = 0 then toString m
     else toString (m / 10 ^ k) ++ "." ++ natPad k (m % 10 ^ k))

/-- Template interpolation of an optional numeric field (JavaScript renders a
missing field as the string undefined). -/
def tmplNum (o : Option ℚ) : String :=
  match o with
  | none => "undefined"
  | some q => jsToString q

/-- JavaScript rendering of an integer. -/
def jsToStringInt (i : ℤ) : String :=
  (if i < 0 then "-" else "") ++ toString i.natAbs

/-- Decimal-digit prefix parse used by `jsParseInt`. -/
def parseDigits (cs : List Char) : Option ℕ :=
  let ds := cs.takeWhile (·.isDigit)
  if ds.isEmpty then none
  else some (ds.foldl (fun a c => a * 10 + (c.toNat - 48)) 0)

/-- JavaScript `parseInt` restricted to base-10 token arguments (an optional
sign followed by leading digits; `none` models NaN). -/
def jsParseInt (s : String) : Option ℤ :=
  match s.data with
  | '-' :: rest => (parseDigits rest).map (fun n => -(n : ℤ))
  | '+' :: rest => (parseDigits rest).map (fun n => (n : ℤ))
  | cs => (parseDigits cs).map (fun n => (n : ℤ))

/-- Deduplication keeping first occurrences, with the already-kept elements in
`seen`. -/
def dedupFirstAux (seen : List String) : List String → List String
  | [] => []
  | x :: xs =>
    if x ∈ seen then dedupFirstAux seen xs
    else x :: dedupFirstAux (seen ++ [x]) xs

/-- Deduplication keeping first occurrences, the iteration order of a JavaScript
Set built by successive inserts. -/
def dedupFirst (l : List String) : List String := dedupFirstAux [] l

/-- Stable insertion of `x` into an already sorted list: `x` is placed after
every element `y` with `le y x`, which matches a stable comparator sort. -/
def sortInsert (le : String → String → Bool) (x : String) : List String → List String
  | [] => [x]
  | y :: ys => if le y x then y :: sortInsert le x ys else x :: y :: ys

/-- The comparator of the node-id sort: numeric when both ids parse as integers,
otherwise lexicographic (modelling localeCompare on ASCII ids). -/
def jsSortLe (a b : String) : Bool :=
  match jsParseInt a, jsParseInt b with
  | some x, some y => decide (x ≤ y)
  | _, _ => !decide (b < a)

/-- Stable sort with the JavaScript comparator of the node listing. -/
def jsSort (l : List String) : List String :=
  l.foldl (fun acc x => sortInsert jsSortLe x acc) []

/-- A point of a flow-boundary schedule. -/
structure SchedulePoint where
  time : ℚ
  flow : ℚ
deriving DecidableEq

/-- The `data` record of a node (interface NodeData in store.ts). -/
structure NodeData where
  label : String
  type : NodeType
  unit : Option UnitSystem := none
  elevation : Option ℚ := none
  reservoirElevation : Option ℚ := none
  nodeNumber : Option ℤ := none
  comment : Option String := none
  topElevation : Option ℚ := none
  bottomElevation : Option ℚ := none
  diameter : Option ℚ := none
  celerity : Option ℚ := none
  friction : Option ℚ := none
  scheduleNumber : Option ℚ := none
  schedulePoints : Option (List SchedulePoint) := none
  tankTop : Option ℚ := none
  tankBottom : Option ℚ := none
deriving DecidableEq

/-- A node of the network graph (`WhamoNode`); visual-only attributes are not
modelled. -/
structure WhamoNode where
  id : String
  type : NodeType
  position : ℚ × ℚ
  data : NodeData
deriving DecidableEq

/-- The `data` record of an edge (interface EdgeData); the `variable` flag is
named `variableFlag` because its TypeScript name is a Lean keyword. -/
structure EdgeData where
  label : String
  type : LinkType
  unit : Option UnitSystem := none
  length : Option ℚ := none
  diameter : Option ℚ := none
  celerity : Option ℚ := none
  friction : Option ℚ := none
  numSegments : Option ℚ := none
  cplus : Option ℚ := none
  cminus : Option ℚ := none
  comment : Option String := none
  variableFlag : Bool := false
  distance : Option ℚ := none
  area : Option ℚ := none
  d : Option ℚ := none
  a : Option ℚ := none
deriving DecidableEq

/-- An edge of the network graph (`WhamoEdge`); its `data` may be absent, which
the source guards with optional chaining. Style and marker attributes are
visual-only and not modelled. -/
structure WhamoEdge where
  id : String
  source : String
  target : String
  data : Option EdgeData := none
deriving DecidableEq

/-- Simulation-control scalars. -/
structure ComputationalParameters where
  dtcomp : ℚ
  dtout : ℚ
  tmax : ℚ
deriving DecidableEq

/-- A telemetry output request. -/
structure OutputRequest where
  id : String
  elementId : String
  elementType : ElemType
  requestType : RequestType
  «variables» : List String
deriving DecidableEq

/-- Quantity kinds of the conversion table (keys of SI_TO_FPS). -/
inductive ConvType
  | length
  | diameter
  | elevation
  | celerity
  | area
  | flow
deriving DecidableEq

/-- The SI to FPS conversion constants of both the emitter and setGlobalUnit. -/
def SI_TO_FPS : ConvType → ℚ
  | .length => 3.28084
  | .diameter => 3.28084
  | .elevation => 3.28084
  | .celerity => 3.28084
  | .area => 10.7639
  | .flow => 35.3147

/-- The emitter helper `toFPS`: an undefined value renders as the empty string;
an FPS value is already in export units; an SI value is multiplied by the
conversion constant; the result is rendered with `toFixed(2)`. -/
def toFPS (value : Option JsNum) (currentUnit : UnitSystem) (ty : ConvType) : String :=
  match value with
  | none => ""
  | some v =>
    if currentUnit = .FPS then v.toFixed2
    else (v.mul (SI_TO_FPS ty)).toFixed2

/-- The pure conversion of `setGlobalUnit`: identity on equal units, multiply by
the constant towards FPS, divide towards SI. -/
def convertValue (value : ℚ) (fromU toU : UnitSystem) (ty : ConvType) : ℚ :=
  if fromU = toU then value
  else if toU = .FPS then value * SI_TO_FPS ty
  else value / SI_TO_FPS ty

/-- JavaScript `Number(x.toFixed(4))`: rounding to four decimal places, used for
every converted field stored back by setGlobalUnit. -/
def rnd4 (q : ℚ) : ℚ := (jsRound (q * 10000) : ℚ) / 10000

/-- One stored field conversion of setGlobalUnit: convert, then round to four
decimal places. -/
def convertField (value : ℚ) (fromU toU : UnitSystem) (ty : ConvType) : ℚ :=
  rnd4 (convertValue value fromU toU ty)

/-- Conversion of an optional numeric field (skipped when absent). -/
def convOpt (fromU toU : UnitSystem) (ty : ConvType) : Option ℚ → Option ℚ :=
  Option.map (fun q => convertField q fromU toU ty)

/-- The per-node action of setGlobalUnit: a node with a local unit override is
returned untouched; otherwise every field registered in the field mapping is
converted (elevation-kind fields, diameter, celerity, and nested schedule-point
flows). -/
def convertNodeForUnit (oldU newU : UnitSystem) (n : WhamoNode) : WhamoNode :=
  if n.data.unit.isSome then n
  else
    { n with data :=
      { n.data with
        elevation := convOpt oldU newU .elevation n.data.elevation
        reservoirElevation := convOpt oldU newU .elevation n.data.reservoirElevation
        topElevation := convOpt oldU newU .elevation n.data.topElevation
        bottomElevation := convOpt oldU newU .elevation n.data.bottomElevation
        tankTop := convOpt oldU newU .elevation n.data.tankTop
        tankBottom := convOpt oldU newU .elevation n.data.tankBottom
        diameter := convOpt oldU newU .diameter n.data.diameter
        celerity := convOpt oldU newU .celerity n.data.celerity
        schedulePoints := n.data.schedulePoints.map
          (List.map (fun p => { p with flow := convertField p.flow oldU newU .flow })) } }

/-- The per-edge action of setGlobalUnit: a pinned edge (or an edge without
data) is unchanged; otherwise the mapped numeric fields are converted. The
variable-geometry sample fields `d` and `a` are not in the field mapping. -/
def convertEdgeForUnit (oldU newU : UnitSystem) (e : WhamoEdge) : WhamoEdge :=
  match e.data with
  | none => e
  | some d =>
    if d.unit.isSome then e
    else
      { e with data := some (
        { d with
          length := convOpt oldU newU .length d.length
          diameter := convOpt oldU newU .diameter d.diameter
          celerity := convOpt oldU newU .celerity d.celerity
          distance := convOpt oldU newU .length d.distance
          area := convOpt oldU newU .area d.area }) }

/-- The unit of undo and redo: the four-field snapshot pushed on the history
stacks by saveToHistory. -/
structure Snapshot where
  nodes : List WhamoNode
  edges : List WhamoEdge
  computationalParams : ComputationalParameters
  outputRequests : List OutputRequest
deriving DecidableEq

/-- The network store state. The module-level id counter and the fresh output
request id source (Date.now with a random suffix in the source) are modelled as
counters carried in the state. -/
structure StoreState where
  nodes : List WhamoNode := []
  edges : List WhamoEdge := []
  selectedElementId : Option String := none
  selectedElementType : Option ElemType := none
  computationalParams : ComputationalParameters := ⟨0.01, 0.1, 500⟩
  outputRequests : List OutputRequest := []
  isLocked : Bool := false
  projectName : String := "Untitled Network"
  globalUnit : UnitSystem := .FPS
  past : List Snapshot := []
  future : List Snapshot := []
  idCounter : ℕ := 1
  reqSupply : ℕ := 0
deriving DecidableEq

/-- The snapshot of the current state taken by the history manager. -/
def snapOf (s : StoreState) : Snapshot :=
  ⟨s.nodes, s.edges, s.computationalParams, s.outputRequests⟩

/-- saveToHistory: push the current snapshot (capped at 50) and clear future. -/
def saveToHistory (s : StoreState) : StoreState :=
  { s with past := (snapOf s :: s.past).take 50, future := [] }

/-- undo: no-op on empty past; otherwise restore the most recent snapshot and
push the current one onto future. -/
def undo (s : StoreState) : StoreState :=
  match s.past with
  | [] => s
  | previous :: rest =>
    { s with
      nodes := previous.nodes
      edges := previous.edges
      computationalParams := previous.computationalParams
      outputRequests := previous.outputRequests
      past := rest
      future := snapOf s :: s.future }

/-- redo: symmetric to undo. -/
def redo (s : StoreState) : StoreState :=
  match s.future with
  | [] => s
  | next :: rest =>
    { s with
      nodes := next.nodes
      edges := next.edges
      computationalParams := next.computationalParams
      outputRequests := next.outputRequests
      past := snapOf s :: s.past
      future := rest }

/-- setGlobalUnit: always snapshots first; a no-op toggle stops there; otherwise
every non-pinned node and edge is converted and the global unit replaced. -/
def setGlobalUnit (s : StoreState) (u : UnitSystem) : StoreState :=
  let s1 := saveToHistory s
  if s1.globalUnit = u then s1
  else
    { s1 with
      globalUnit := u
      nodes := s1.nodes.map (convertNodeForUnit s1.globalUnit u)
      edges := s1.edges.map (convertEdgeForUnit s1.globalUnit u) }

/-- The fixed variable set of default output requests. -/
def availableVars : List String := ["Q", "HEAD", "ELEV", "VEL", "PRESS", "PIEZHEAD"]

/-- The request types generated for a new element, in source order. -/
def requestTypesList : List RequestType := [.HISTORY, .PLOT, .SPREADSHEET]

/-- A fresh output-request id drawn from the modelled id supply. -/
def mkReqId (n : ℕ) : String := "req-" ++ toString n

/-- The three default requests generated for one element, each with its own
fresh id. -/
def defaultRequestsFor (elId : String) (ety : ElemType) (supply : ℕ) : List OutputRequest :=
  [ ⟨mkReqId supply, elId, ety, .HISTORY, availableVars⟩,
    ⟨mkReqId (supply + 1), elId, ety, .PLOT, availableVars⟩,
    ⟨mkReqId (supply + 2), elId, ety, .SPREADSHEET, availableVars⟩ ]

/-- Kind-specific initial data of addNode. -/
def initialDataFor (ty : NodeType) (id : String) (nodeNumber : ℤ) : NodeData :=
  match ty with
  | .reservoir =>
    { label := "HW", type := .reservoir, nodeNumber := some nodeNumber,
      elevation := some 100, reservoirElevation := some 100 }
  | .node =>
    { label := "Node " ++ jsToStringInt nodeNumber, type := .node,
      nodeNumber := some nodeNumber, elevation := some 50 }
  | .junction =>
    { label := "Node " ++ jsToStringInt nodeNumber, type := .junction,
      nodeNumber := some nodeNumber, elevation := some 50 }
  | .surgeTank =>
    { label := "ST", type := .surgeTank, nodeNumber := some nodeNumber,
      topElevation := some 120, bottomElevation := some 80, diameter := some 5,
      celerity := some 1000, friction := some 0.01 }
  | .flowBoundary =>
    { label := "FB" ++ id, type := .flowBoundary, nodeNumber := some nodeNumber,
      scheduleNumber := some 1 }

/-- addNode: snapshot, allocate an id, append the node with kind defaults, then
append the three default output requests for it. -/
def addNode (s : StoreState) (ty : NodeType) (pos : ℚ × ℚ) : StoreState :=
  let s1 := saveToHistory s
  let id := toString s1.idCounter
  let s2 := { s1 with idCounter := s1.idCounter + 1 }
  let nodeNumber : ℤ := (jsParseInt id).getD 0
  let newNode : WhamoNode := ⟨id, ty, pos, initialDataFor ty id nodeNumber⟩
  let s3 := { s2 with nodes := s2.nodes ++ [newNode] }
  { s3 with
    outputRequests := s3.outputRequests ++ defaultRequestsFor id .node s3.reqSupply
    reqSupply := s3.reqSupply + 3 }

/-- The library helper addEdge of the flow canvas (external to the repository):
rejects a connection with a missing endpoint, drops a duplicate of an existing
source and target pair, and otherwise appends. -/
def addEdgeLib (e : WhamoEdge) (edges : List WhamoEdge) : List WhamoEdge :=
  if e.source = "" ∨ e.target = "" then edges
  else if edges.any (fun x => decide (x.source = e.source) && decide (x.target = e.target)) then edges
  else edges ++ [e]

/-- onConnect: snapshot, allocate an id, create a conduit edge with default
hydraulic fields and a running conduit label, then append the three default
output requests for it. -/
def onConnect (s : StoreState) (source target : String) : StoreState :=
  let s1 := saveToHistory s
  let id := toString s1.idCounter
  let s2 := { s1 with idCounter := s1.idCounter + 1 }
  let conduitCount := (s2.edges.filter (fun e => decide (e.data.map (·.type) = some .conduit))).length
  let connectionLabel := "C" ++ toString (conduitCount + 1)
  let newEdge : WhamoEdge :=
    ⟨id, source, target, some
      { label := connectionLabel, type := .conduit, length := some 1000,
        diameter := some 0.5, celerity := some 1000, friction := some 0.02,
        numSegments := some 1 }⟩
  let s3 := { s2 with edges := addEdgeLib newEdge s2.edges }
  { s3 with
    outputRequests := s3.outputRequests ++ defaultRequestsFor id .edge s3.reqSupply
    reqSupply := s3.reqSupply + 3 }

/-- deleteElement: snapshot, then for a node remove it and every incident edge,
for an edge remove just the edge; clear the selection if it pointed at the
deleted element. Output requests are not touched. -/
def deleteElement (s : StoreState) (id : String) (ty : ElemType) : StoreState :=
  let s1 := saveToHistory s
  match ty with
  | .node =>
    { s1 with
      nodes := s1.nodes.filter (fun n => decide (n.id ≠ id))
      edges := s1.edges.filter (fun e => decide (e.source ≠ id) && decide (e.target ≠ id))
      selectedElementId := if s1.selectedElementId = some id then none else s1.selectedElementId
      selectedElementType := if s1.selectedElementId = some id then none else s1.selectedElementType }
  | .edge =>
    { s1 with
      edges := s1.edges.filter (fun e => decide (e.id ≠ id))
      selectedElementId := if s1.selectedElementId = some id then none else s1.selectedElementId
      selectedElementType := if s1.selectedElementId = some id then none else s1.selectedElementType }

/-- The element list scanned by autoSelectOutputRequests, nodes first. -/
def autoGenRequests : List (String × ElemType) → ℕ → List OutputRequest
  | [], _ => []
  | (i, t) :: rest, n => defaultRequestsFor i t n ++ autoGenRequests rest (n + 3)

/-- autoSelectOutputRequests: replace the entire request set with the defaults
for every current node and edge. -/
def autoSelectOutputRequests (s : StoreState) : StoreState :=
  let els := s.nodes.map (fun n => (n.id, ElemType.node)) ++ s.edges.map (fun e => (e.id, ElemType.edge))
  { s with
    outputRequests := autoGenRequests els s.reqSupply
    reqSupply := s.reqSupply + 3 * els.length }

/-- The externally visible id of a node in the emitted file:
`node.data.nodeNumber?.toString() || node.id` (a number never renders to the
empty string, so the fallback fires exactly when nodeNumber is absent). -/
def actualNodeId (n : WhamoNode) : String :=
  match n.data.nodeNumber with
  | some k => jsToStringInt k
  | none => n.id

/-- The label of an edge in the emitted file: `edge.data?.label || edge.id`. -/
def edgeLabel (e : WhamoEdge) : String :=
  match e.data with
  | some d => if d.label = "" then e.id else d.label
  | none => e.id

/-- One line of the connectivity section, kept structured; `render` produces
the literal line pushed by the source. -/
inductive ConnLine
  | elemAt (label id : String)
  | junctionAt (id : String)
  | blank
  | link (label fromId toId : String)
deriving DecidableEq

/-- The literal text of a connectivity line. -/
def ConnLine.render : ConnLine → String
  | .elemAt l i => "ELEM " ++ l ++ " AT " ++ i
  | .junctionAt i => "JUNCTION AT " ++ i
  | .blank => ""
  | .link l f t => "ELEM " ++ l ++ " LINK " ++ f ++ " " ++ t

/-- The mutable state of the connectivity traversal: the visited node and edge
sets, the connectivity lines built so far, and the node-numbers carrying a
special element. -/
structure TravSt where
  visitedN : List String := []
  visitedE : List String := []
  conn : List ConnLine := []
  specials : List String := []
deriving DecidableEq

/-- Set insertion for the special-element node-number set. -/
def addSpecial (st : TravSt) (i : String) : TravSt :=
  if i ∈ st.specials then st else { st with specials := st.specials ++ [i] }

/-- The rendered target id of a LINK line:
`toNode?.data.nodeNumber?.toString() || toNode?.id || edge.target`. -/
def linkTargetId (nodes : List WhamoNode) (e : WhamoEdge) : String :=
  match nodes.find? (fun n => decide (n.id = e.target)) with
  | some tn => actualNodeId tn
  | none => e.target

/-- Marking one unvisited outgoing edge: record it visited and push its LINK
line. -/
def markEdge (nodes : List WhamoNode) (fromId : String) (e : WhamoEdge)
    (st : TravSt) : TravSt :=
  { st with
    visitedE := st.visitedE ++ [e.id]
    conn := st.conn ++ [.link (edgeLabel e) fromId (linkTargetId nodes e)] }

/-- The loop body over the outgoing edges of one node: an already visited edge
is skipped; otherwise the edge is marked, its LINK line pushed, and the
traversal (`step`) recurses into the target. -/
def goEdges (nodes : List WhamoNode) (fromId : String)
    (step : TravSt → String → Option TravSt) :
    List WhamoEdge → TravSt → Option TravSt
  | [], st => some st
  | e :: rest, st =>
    if e.id ∈ st.visitedE then goEdges nodes fromId step rest st
    else
      match step (markEdge nodes fromId e st) e.target with
      | none => none
      | some st2 => goEdges nodes fromId step rest st2

/-- Marking one node visited. -/
def markNode (st : TravSt) (nodeId : String) : TravSt :=
  { st with visitedN := st.visitedN ++ [nodeId] }

/-- Pushing the ELEM AT line of a special element and recording the node-number
as special. -/
def pushElemAt (st : TravSt) (label actual : String) : TravSt :=
  addSpecial { st with conn := st.conn ++ [.elemAt label actual] } actual

/-- Pushing the JUNCTION marker lines and recording the node-number as
special. -/
def pushJunction (st : TravSt) (actual : String) : TravSt :=
  addSpecial { st with conn := st.conn ++ [.blank, .junctionAt actual, .blank] } actual

/-- The recursive depth-first traversal of the source, with an explicit fuel;
`none` arises only on fuel exhaustion, and the termination theorem shows the
fuel used by `runTraversal` always suffices. A visited node returns
immediately; an unvisited one is marked, emits its special-element and junction
lines, and recurses along unvisited outgoing edges. -/
def traverseF (nodes : List WhamoNode) (edges : List WhamoEdge) :
    ℕ → TravSt → String → Option TravSt
  | fuel, st, nodeId =>
    if nodeId ∈ st.visitedN then some st
    else
      match fuel with
      | 0 => none
      | fuel + 1 =>
        match nodes.find? (fun n => decide (n.id = nodeId)) with
        | none => some (markNode st nodeId)
        | some node =>
          let actual := actualNodeId node
          let st2 :=
            if node.type = .reservoir ∨ node.type = .surgeTank ∨ node.type = .flowBoundary then
              pushElemAt (markNode st nodeId) node.data.label actual
            else markNode st nodeId
          let outgoing := edges.filter (fun e => decide (e.source = nodeId))
          if outgoing.length > 0 then
            let st3 :=
              if node.type = .junction ∨ outgoing.length > 1 then pushJunction st2 actual
              else st2
            goEdges nodes actual (traverseF nodes edges fuel) outgoing st3
          else some st2

/-- The fuel given to the traversal: enough to mark every node id and every
edge target once. -/
def travFuel (nodes : List WhamoNode) (edges : List WhamoEdge) : ℕ :=
  nodes.length + edges.length + 1

/-- The traversal started from every reservoir node, sharing one visited set. -/
def runTraversal (nodes : List WhamoNode) (edges : List WhamoEdge) : Option TravSt :=
  (nodes.filter (fun n => decide (n.type = .reservoir))).foldl
    (fun acc r => acc.bind (fun st => traverseF nodes edges (travFuel nodes edges) st r.id))
    (some {})

/-- The pass over nodes never reached by the traversal: a disconnected surge
tank or flow boundary still emits its standalone ELEM line and counts as
special. -/
def addDisconnected (nodes : List WhamoNode) (st : TravSt) : TravSt :=
  nodes.foldl
    (fun st n =>
      if n.id ∈ st.visitedN then st
      else if n.type = .surgeTank ∨ n.type = .flowBoundary then
        addSpecial { st with conn := st.conn ++ [.elemAt n.data.label (actualNodeId n)] } (actualNodeId n)
      else st)
    st

/-- An element link extracted from the connectivity lines. -/
structure LinkRec where
  label : String
  fromId : String
  toId : String
deriving DecidableEq

/-- The source re-parses the connectivity lines with a regular expression
matching `ELEM <id> LINK <from> <to>`; on the single-space lines the traversal
generates (labels and ids are whitespace-free tokens) the matches are exactly
the link lines, which this extracts structurally. -/
def linkRecords (conn : List ConnLine) : List LinkRec :=
  conn.filterMap (fun l =>
    match l with
    | .link lbl f t => some ⟨lbl, f, t⟩
    | _ => none)

/-- The incoming element labels of one node-number. -/
def incomingLabels (links : List LinkRec) (n : String) : List String :=
  (links.filter (fun l => decide (l.toId = n))).map (·.label)

/-- The outgoing element labels of one node-number. -/
def outgoingLabels (links : List LinkRec) (n : String) : List String :=
  (links.filter (fun l => decide (l.fromId = n))).map (·.label)

/-- The node-inclusion rule of the emitter: a node-number with a special
element is always kept; otherwise it is skipped exactly when it has one
incoming and one outgoing reference to the same element label. -/
def includeNode (links : List LinkRec) (specials : List String) (nId : String) : Bool :=
  if nId ∈ specials then true
  else
    !(decide ((incomingLabels links nId).length = 1) &&
      decide ((outgoingLabels links nId).length = 1) &&
      decide ((incomingLabels links nId).head? = (outgoingLabels links nId).head?))

/-- The node-numbers kept for the elevation listing, in first-insertion order. -/
def nodesToInclude (links : List LinkRec) (specials : List String)
    (allIds : List String) : List String :=
  allIds.filter (includeNode links specials)

/-- The `NODE <id> ELEV <value>` lines: one line per included node-number whose
node exists and has a defined elevation, converted under its own or the global
unit. -/
def nodeLines (nodes : List WhamoNode) (globalUnit : UnitSystem)
    (sortedIds : List String) : List String :=
  sortedIds.filterMap (fun i =>
    match nodes.find? (fun n => decide (actualNodeId n = i)) with
    | some n =>
      match n.data.elevation with
      | some q =>
        some ("NODE " ++ i ++ " ELEV " ++ toFPS (some (.num q)) (n.data.unit.getD globalUnit) .elevation)
      | none => none
    | none => none)

/-- The optional comment line of a property block (an empty comment is falsy
and skipped). -/
def commentLines (c : Option String) : List String :=
  match c with
  | some s => if s = "" then [] else ["c " ++ s]
  | none => []

/-- The RESERVOIR property block; a missing reservoir elevation is replaced by
zero before conversion. -/
def reservoirBlock (globalUnit : UnitSystem) (n : WhamoNode) : List String :=
  let u := n.data.unit.getD globalUnit
  commentLines n.data.comment ++
  [ "RESERVOIR",
    " ID " ++ n.data.label,
    " ELEV " ++ toFPS (some (.num (n.data.reservoirElevation.getD 0))) u .elevation,
    " FINISH",
    "" ]

/-- The CONDUIT property block of one edge with data `d`. -/
def conduitBlock (globalUnit : UnitSystem) (e : WhamoEdge) (d : EdgeData) : List String :=
  let u := d.unit.getD globalUnit
  commentLines d.comment ++
  [ "CONDUIT", " ID " ++ edgeLabel e ] ++
  (if d.variableFlag then
      [" VARIABLE"] ++
      (match d.distance with
        | some q => [" DISTANCE " ++ toFPS (some (.num q)) u .length]
        | none => []) ++
      (match d.area with
        | some q => [" AREA " ++ toFPS (some (.num q)) u .area]
        | none => []) ++
      (match d.d with
        | some q => [" D " ++ toFPS (some (.num q)) u .diameter]
        | none => []) ++
      (match d.a with
        | some q => [" A " ++ toFPS (some (.num q)) u .area]
        | none => [])
    else []) ++
  [" LENGTH " ++ toFPS (some (jsNumber d.length)) u .length] ++
  (if d.variableFlag then []
   else [" DIAM " ++ toFPS (some (jsNumber d.diameter)) u .diameter]) ++
  [ " CELERITY " ++ toFPS (some (jsNumber d.celerity)) u .celerity,
    " FRICTION " ++ tmplNum d.friction ] ++
  (if d.cplus.isSome ∨ d.cminus.isSome then
      [" ADDEDLOSS"] ++
      (match d.cplus with
        | some q => ["     CPLUS " ++ jsToString q]
        | none => []) ++
      (match d.cminus with
        | some q => ["     CMINUS " ++ jsToString q]
        | none => [])
    else []) ++
  (match d.numSegments with
    | some q => [" NUMSEG " ++ jsToString q]
    | none => []) ++
  ["FINISH", ""]

/-- The conduit section loop, deduplicating by label: only the first edge with
a given conduit label emits a block. -/
def conduitGo (globalUnit : UnitSystem) : List WhamoEdge → List String → List String
  | [], _ => []
  | e :: rest, seen =>
    match e.data with
    | none => conduitGo globalUnit rest seen
    | some d =>
      let lbl := edgeLabel e
      if lbl ∈ seen then conduitGo globalUnit rest seen
      else conduitBlock globalUnit e d ++ conduitGo globalUnit rest (seen ++ [lbl])

/-- All CONDUIT blocks of conduit-typed edges. -/
def conduitSection (globalUnit : UnitSystem) (edges : List WhamoEdge) : List String :=
  conduitGo globalUnit (edges.filter (fun e => decide (e.data.map (·.type) = some .conduit))) []

/-- The DUMMY conduit block of one edge with data `d` (trailing spaces as in
the source literals). -/
def dummyBlock (globalUnit : UnitSystem) (e : WhamoEdge) (d : EdgeData) : List String :=
  let u := d.unit.getD globalUnit
  commentLines d.comment ++
  [ "CONDUIT ID " ++ (if d.label = "" then e.id else d.label) ++ " ",
    " DUMMY ",
    " DIAMETER " ++ toFPS (some (jsNumber d.diameter)) u .diameter,
    " ADDEDLOSS " ] ++
  (match d.cplus with
    | some q => [" CPLUS " ++ jsToString q]
    | none => []) ++
  (match d.cminus with
    | some q => [" CMINUS " ++ jsToString q]
    | none => []) ++
  ["FINISH", ""]

/-- All DUMMY blocks of dummy-typed edges (no label deduplication here). -/
def dummySection (globalUnit : UnitSystem) (edges : List WhamoEdge) : List String :=
  ((edges.filter (fun e => decide (e.data.map (·.type) = some .dummy))).map (fun e =>
    match e.data with
    | some d => dummyBlock globalUnit e d
    | none => [])).flatten

/-- The SURGETANK property block: note that it reads the `tankTop` and
`tankBottom` fields of the node data. -/
def surgeTankBlock (globalUnit : UnitSystem) (n : WhamoNode) : List String :=
  let d := n.data
  let u := d.unit.getD globalUnit
  commentLines d.comment ++
  [ "SURGETANK ",
    " ID " ++ d.label ++ " SIMPLE",
    " ELTOP " ++ toFPS (some (jsNumber d.tankTop)) u .elevation,
    " ELBOTTOM " ++ toFPS (some (jsNumber d.tankBottom)) u .elevation,
    " DIAM " ++ toFPS (some (jsNumber d.diameter)) u .diameter,
    " CELERITY " ++ toFPS (some (jsNumber d.celerity)) u .celerity,
    " FRICTION " ++ tmplNum d.friction,
    "FINISH",
    "" ]

/-- The single-line FLOWBC blocks. -/
def flowbcLines (nodes : List WhamoNode) : List String :=
  ((nodes.filter (fun n => decide (n.type = .flowBoundary))).map (fun n =>
    commentLines n.data.comment ++
    ["FLOWBC ID " ++ n.data.label ++ " QSCHEDULE " ++ tmplNum n.data.scheduleNumber ++ " FINISH"])).flatten

/-- The QSCHEDULE lines: one per flow boundary, with the fixed three-point
fallback schedule when no points are defined. -/
def scheduleLines (globalUnit : UnitSystem) (nodes : List WhamoNode) : List String :=
  (nodes.filter (fun n => decide (n.type = .flowBoundary))).map (fun n =>
    let d := n.data
    let u := d.unit.getD globalUnit
    let schedule :=
      match d.schedulePoints with
      | some (p :: ps) =>
        String.intercalate " "
          ((p :: ps).map (fun p => "T " ++ jsToString p.time ++ " Q " ++ toFPS (some (.num p.flow)) u .flow))
      | _ => "T 0 Q 3000 T 20 Q 0 T 3000 Q 0"
    " QSCHEDULE " ++ tmplNum d.scheduleNumber ++ " " ++ schedule)

/-- The label of a node-targeted output request that is not a surge tank:
`nodeNumber || label || id || elementId` with JavaScript falsiness (a zero
node-number and empty strings fall through). -/
def reqLabelNode (el : Option WhamoNode) (fallback : String) : String :=
  match el with
  | none => fallback
  | some n =>
    let byLabel :=
      if n.data.label = "" then (if n.id = "" then fallback else n.id) else n.data.label
    match n.data.nodeNumber with
    | some k => if k = 0 then byLabel else jsToStringInt k
    | none => byLabel

/-- The label of a surge-tank output request: `label || id || elementId`. -/
def reqLabelSurge (el : Option WhamoNode) (fallback : String) : String :=
  match el with
  | none => fallback
  | some n =>
    if n.data.label = "" then (if n.id = "" then fallback else n.id) else n.data.label

/-- The label of an edge-targeted output request (edge data has no nodeNumber,
so the chain starts at the label). -/
def reqLabelEdge (el : Option WhamoEdge) (fallback : String) : String :=
  match el with
  | none => fallback
  | some e =>
    let lbl :=
      match e.data with
      | some d => d.label
      | none => ""
    if lbl = "" then (if e.id = "" then fallback else e.id) else lbl

/-- One line of an output-request group: surge-tank nodes use an ELEM prefix
with their element label, everything else a NODE prefix. -/
def requestLine (nodes : List WhamoNode) (edges : List WhamoEdge) (req : OutputRequest) : String :=
  match req.elementType with
  | .node =>
    let el := nodes.find? (fun n => decide (n.id = req.elementId))
    if el.map (fun n => n.data.type) = some NodeType.surgeTank then
      " ELEM " ++ reqLabelSurge el req.elementId ++ " " ++ String.intercalate " " req.variables
    else
      " NODE " ++ reqLabelNode el req.elementId ++ " " ++ String.intercalate " " req.variables
  | .edge =>
    let el := edges.find? (fun e => decide (e.id = req.elementId))
    " NODE " ++ reqLabelEdge el req.elementId ++ " " ++ String.intercalate " " req.variables

/-- The output-request section: requests grouped by request type in first-seen
order, a DISPLAY ALL trailer when more than one group exists, and a fixed
fallback history block when no requests exist. -/
def outputSection (nodes : List WhamoNode) (edges : List WhamoEdge)
    (requests : List OutputRequest) : List String :=
  let types := dedupFirst (requests.map (fun r => r.requestType.render))
  if types.length > 0 then
    (types.map (fun t =>
      [t] ++
      (requests.filter (fun r => decide (r.requestType.render = t))).map (requestLine nodes edges) ++
      [" FINISH", ""])).flatten ++
    (if types.length > 1 then [" DISPLAY", "  ALL", " FINISH", ""] else [])
  else
    ["HISTORY", " NODE 2 Q HEAD", " ELEM ST Q ELEV", " FINISH"]

/-- The full emitted file as its list of lines, assembled in source order from
the connectivity traversal, the node listing, the property blocks, the
schedule, output-request, and control sections. -/
def generateInpFile (nodes : List WhamoNode) (edges : List WhamoEdge)
    (globalUnit : UnitSystem) (outputRequests : List OutputRequest)
    (cp : ComputationalParameters) : List String :=
  let st0 := (runTraversal nodes edges).getD {}
  let st := addDisconnected nodes st0
  let links := linkRecords st.conn
  let allNodeIds := dedupFirst (nodes.map actualNodeId ++ st.specials)
  let sortedIds := jsSort (nodesToInclude links st.specials allNodeIds)
  [ "c Project Name", "C  SYSTEM CONNECTIVITY", "", "SYSTEM", "" ] ++
  st.conn.map ConnLine.render ++
  [""] ++
  nodeLines nodes globalUnit sortedIds ++
  ["", "FINISH", "", "C ELEMENT PROPERTIES", ""] ++
  ((nodes.filter (fun n => decide (n.type = .reservoir))).map (reservoirBlock globalUnit)).flatten ++
  conduitSection globalUnit edges ++
  dummySection globalUnit edges ++
  ((nodes.filter (fun n => decide (n.type = .surgeTank))).map (surgeTankBlock globalUnit)).flatten ++
  flowbcLines nodes ++
  ["", "", "SCHEDULE"] ++
  scheduleLines globalUnit nodes ++
  ["", "FINISH", "", "", "C OUTPUT REQUEST", ""] ++
  outputSection nodes edges outputRequests ++
  [ "", "", "C COMPUTATIONAL PARAMETERS", "CONTROL",
    " DTCOMP " ++ jsToString cp.dtcomp ++ " DTOUT " ++ jsToString cp.dtout ++
      " TMAX " ++ jsToString cp.tmax,
    "FINISH", "", "C EXECUTION CONTROL", "GO", "GOODBYE" ]

/-- Every node id the traversal can ever be called on: the graph node ids (the
roots) and the edge targets (the recursion arguments). -/
def idUniverse (nodes : List WhamoNode) (edges : List WhamoEdge) : List String :=
  nodes.map (·.id) ++ edges.map (·.target)

/-- The termination measure of the traversal: how many distinct candidate ids
are not yet visited. -/
def travMeasure (nodes : List WhamoNode) (edges : List WhamoEdge) (st : TravSt) : ℕ :=
  ((idUniverse nodes edges).toFinset.filter (fun i => i ∉ st.visitedN)).card

/-- The number of ELEM LINK lines among the connectivity lines. -/
def countLinks (conn : List ConnLine) : ℕ :=
  conn.countP (fun l => match l with | .link _ _ _ => true | _ => false)

/-- The number of ELEM AT lines among the connectivity lines. -/
def countAts (conn : List ConnLine) : ℕ :=
  conn.countP (fun l => match l with | .elemAt _ _ => true | _ => false)

/-- The visited-once invariant: the visited sets hold no duplicates, every
visited edge has contributed exactly one LINK line, and at most one ELEM AT
line exists per visited node. -/
def travInv (st : TravSt) : Prop :=
  st.visitedN.Nodup ∧ st.visitedE.Nodup ∧
  countLinks st.conn = st.visitedE.length ∧
  countAts st.conn ≤ st.visitedN.length

/-- A step function is monotone when it only ever grows the visited sets. -/
def stepMono (step : TravSt → String → Option TravSt) : Prop :=
  ∀ s m s', step s m = some s' → s.visitedN ⊆ s'.visitedN ∧ s.visitedE ⊆ s'.visitedE

/-- A step function preserves the visited-once invariant. -/
def stepInv (step : TravSt → String → Option TravSt) : Prop :=
  ∀ s m s', step s m = some s' → travInv s → travInv s'

/-- A step function succeeds on universe ids below the measure bound. -/
def stepSome (nodes : List WhamoNode) (edges : List WhamoEdge)
    (step : TravSt → String → Option TravSt) (bound : ℕ) : Prop :=
  ∀ s m, m ∈ idUniverse nodes edges → travMeasure nodes edges s < bound → (step s m).isSome

/-- A reservoir node of the cyclic witness graph. -/
def wNodeR : WhamoNode :=
  ⟨"1", .reservoir, (0, 0),
   { label := "HW", type := .reservoir, nodeNumber := some 1, elevation := some 100, reservoirElevation := some 100 }⟩

/-- A plain node of the cyclic witness graph. -/
def wNodeS : WhamoNode :=
  ⟨"2", .node, (0, 0),
   { label := "Node 2", type := .node, nodeNumber := some 2, elevation := some 50 }⟩

/-- The forward edge of the cycle. -/
def wEdgeF : WhamoEdge := ⟨"3", "1", "2", some { label := "C1", type := .conduit }⟩

/-- The back edge closing the cycle. -/
def wEdgeB : WhamoEdge := ⟨"4", "2", "1", some { label := "C2", type := .conduit }⟩

/-- The state the traversal reaches on the cyclic witness graph. -/
def wTravResult : TravSt :=
  ⟨["1", "2"], ["3", "4"],
   [.elemAt "HW" "1", .link "C1" "1" "2", .link "C2" "2" "1"], ["1"]⟩

/-! Concrete fixtures used by counterexamples and witnesses. -/

/-- A plain node used by the deletion counterexample. -/
def cNodeA : WhamoNode :=
  ⟨"1", .node, (0, 0), { label := "Node 1", type := .node, nodeNumber := some 1, elevation := some 50 }⟩

/-- An edge incident to `cNodeA`. -/
def cEdgeA : WhamoEdge := ⟨"3", "1", "2", some { label := "C1", type := .conduit }⟩

/-- A request referencing `cNodeA`. -/
def cReqA : OutputRequest := ⟨"req-0", "1", .node, .HISTORY, availableVars⟩

/-- A store holding a node, an incident edge, and a request on the node. -/
def cStateA : StoreState := { nodes := [cNodeA], edges := [cEdgeA], outputRequests := [cReqA] }

/-- A node pinned to SI by a local unit override. -/
def cPinnedNode : WhamoNode :=
  ⟨"7", .node, (0, 0), { label := "N", type := .node, unit := some .SI, elevation := some 50 }⟩

/-- An edge pinned to SI by a local unit override. -/
def cPinnedEdgeData : EdgeData := { label := "C9", type := .conduit, unit := some .SI, length := some 3 }

/-- The pinned edge carrying `cPinnedEdgeData`. -/
def cPinnedEdge : WhamoEdge := ⟨"8", "7", "7", some cPinnedEdgeData⟩

/-- A store holding the pinned elements, with global unit SI. -/
def cStateB : StoreState := { nodes := [cPinnedNode], edges := [cPinnedEdge], globalUnit := .SI }

/-- A store with one saved snapshot, for the undo and redo witness. -/
def cStateC : StoreState := saveToHistory { nodes := [cNodeA] }

/-- A reservoir whose reservoirElevation is undefined. -/
def cResNoElev : WhamoNode :=
  ⟨"1", .reservoir, (0, 0), { label := "HW", type := .reservoir, nodeNumber := some 1 }⟩

/-- A conduit edge all of whose numeric fields are undefined. -/
def cCondNoFieldsData : EdgeData := { label := "C1", type := .conduit }

/-- The edge carrying `cCondNoFieldsData`. -/
def cCondNoFields : WhamoEdge := ⟨"2", "1", "9", some cCondNoFieldsData⟩

/-- The file emitted for the undefined-fields fixture. -/
def c7lines : List String :=
  generateInpFile [cResNoElev] [cCondNoFields] .SI [] ⟨0.01, 0.1, 500⟩

/-- The scenario of the single-reservoir claim, built through the store
operations: set the global unit to SI on the empty store, add a reservoir, add
a surge tank, connect them. -/
def scenState : StoreState :=
  onConnect (addNode (addNode (setGlobalUnit {} .SI) .reservoir (0, 0)) .surgeTank (0, 0)) "1" "2"

/-- The file emitted for the scenario. -/
def scenLines : List String :=
  generateInpFile scenState.nodes scenState.edges scenState.globalUnit
    scenState.outputRequests scenState.computationalParams

/-- C2 (amended): deleteElement on a node removes the node and every incident
edge, but leaves the output-request list unchanged (no pruning of requests
referencing the deleted elements). -/
theorem c2_delete_node_cascade (s : StoreState) (i : String) :
    (deleteElement s i .node).nodes = s.nodes.filter (fun n => decide (n.id ≠ i)) ∧
    (deleteElement s i .node).edges
      = s.edges.filter (fun e => decide (e.source ≠ i) && decide (e.target ≠ i)) ∧
    (deleteElement s i .node).outputRequests = s.outputRequests :=
  ⟨rfl, rfl, rfl⟩

/-- C2 (counterexample): deleting node 1 removes the node and its incident
edge, yet the request whose elementId is the deleted node 1 survives, so the
claimed pruning of referencing output requests does not happen. -/
theorem c2_delete_node_requests_counterexample :
    (deleteElement cStateA "1" .node).nodes = [] ∧
    (deleteElement cStateA "1" .node).edges = [] ∧
    (deleteElement cStateA "1" .node).outputRequests = [cReqA] ∧
    cReqA.elementId = "1" := by
  refine ⟨?_, ?_, ?_, rfl⟩ <;> rfl

/-- C4: undo on an empty past stack is a no-op, and undo immediately followed
by redo restores the whole pre-undo store state (in particular its nodes,
edges, computational parameters and output requests). -/
theorem c4_undo_redo_roundtrip (s : StoreState) :
    (s.past = [] → undo s = s) ∧ (s.past ≠ [] → redo (undo s) = s) := by
  obtain ⟨nodes, edges, selId, selTy, cp, reqs, lock, pname, gu, past, future, idc, rs⟩ := s
  constructor
  · intro h
    simp only at h
    subst h
    rfl
  · intro h
    match past, h with
    | p :: rest, _ =>
      obtain ⟨pn, pe, pc, pr⟩ := p
      rfl

/-- C4 (witness): the round trip evaluated on a store with one history entry,
and the no-op evaluated on the empty store. -/
theorem c4_undo_redo_roundtrip_witness :
    undo {} = ({} : StoreState) ∧ redo (undo cStateC) = cStateC :=
  ⟨(c4_undo_redo_roundtrip {}).1 rfl,
   (c4_undo_redo_roundtrip cStateC).2 (by decide)⟩

/-- C10: undo and redo never change globalUnit, the selection, projectName or
isLocked, and undoing a setGlobalUnit toggle restores the pre-toggle nodes,
edges, parameters and requests while globalUnit stays at the new setting. -/
theorem c10_undo_redo_frame (s : StoreState) (u : UnitSystem) :
    (undo s).globalUnit = s.globalUnit ∧
    (undo s).selectedElementId = s.selectedElementId ∧
    (undo s).selectedElementType = s.selectedElementType ∧
    (undo s).projectName = s.projectName ∧
    (undo s).isLocked = s.isLocked ∧
    (redo s).globalUnit = s.globalUnit ∧
    (redo s).selectedElementId = s.selectedElementId ∧
    (redo s).selectedElementType = s.selectedElementType ∧
    (redo s).projectName = s.projectName ∧
    (redo s).isLocked = s.isLocked ∧
    (undo (setGlobalUnit s u)).nodes = s.nodes ∧
    (undo (setGlobalUnit s u)).edges = s.edges ∧
    (undo (setGlobalUnit s u)).computationalParams = s.computationalParams ∧
    (undo (setGlobalUnit s u)).outputRequests = s.outputRequests ∧
    (undo (setGlobalUnit s u)).globalUnit = u := by
  obtain ⟨nodes, edges, selId, selTy, cp, reqs, lock, pname, gu, past, future, idc, rs⟩ := s
  refine ⟨?_, ?_, ?_, ?_, ?_, ?_, ?_, ?_, ?_, ?_, ?_, ?_, ?_, ?_, ?_⟩ <;>
    first
      | (cases past <;> rfl)
      | (cases future <;> rfl)
      | (by_cases hgu : gu = u <;> simp [setGlobalUnit, saveToHistory, undo, snapOf, hgu])

/-- A pinned node is returned unchanged by the per-node conversion. -/
lemma convertNodeForUnit_pinned (u0 u1 : UnitSystem) (n : WhamoNode)
    (h : n.data.unit.isSome) : convertNodeForUnit u0 u1 n = n := by
  simp [convertNodeForUnit, h]

/-- A pinned edge is returned unchanged by the per-edge conversion. -/
lemma convertEdgeForUnit_pinned (u0 u1 : UnitSystem) (e : WhamoEdge) (d : EdgeData)
    (hd : e.data = some d) (hu : d.unit.isSome) : convertEdgeForUnit u0 u1 e = e := by
  simp [convertEdgeForUnit, hd, hu]

/-- C6: an element with a local unit override is untouched by the global unit
toggle, both pointwise (the per-element conversion returns it unchanged) and
inside setGlobalUnit (the pinned element is still present, identical, after
the toggle). -/
theorem c6_local_unit_pinning (u0 u1 : UnitSystem) (n : WhamoNode) (e : WhamoEdge)
    (s : StoreState) (u : UnitSystem) :
    (n.data.unit.isSome → convertNodeForUnit u0 u1 n = n) ∧
    (∀ d, e.data = some d → d.unit.isSome → convertEdgeForUnit u0 u1 e = e) ∧
    (n ∈ s.nodes → n.data.unit.isSome → n ∈ (setGlobalUnit s u).nodes) ∧
    (∀ d, e.data = some d → d.unit.isSome → e ∈ s.edges → e ∈ (setGlobalUnit s u).edges) := by
  refine ⟨convertNodeForUnit_pinned u0 u1 n, fun d hd hu => convertEdgeForUnit_pinned u0 u1 e d hd hu, ?_, ?_⟩
  · intro hm hu
    by_cases hgu : s.globalUnit = u
    · simpa [setGlobalUnit, saveToHistory, hgu] using hm
    · simp only [setGlobalUnit, saveToHistory, hgu, if_false]
      exact List.mem_map.mpr ⟨n, hm, convertNodeForUnit_pinned _ _ n hu⟩
  · intro d hd hu hm
    by_cases hgu : s.globalUnit = u
    · simpa [setGlobalUnit, saveToHistory, hgu] using hm
    · simp only [setGlobalUnit, saveToHistory, hgu, if_false]
      exact List.mem_map.mpr ⟨e, hm, convertEdgeForUnit_pinned _ _ e d hd hu⟩

/-- C6 (witness): the pinned node and edge of the fixture survive an SI to FPS
toggle unchanged. -/
theorem c6_local_unit_pinning_witness :
    convertNodeForUnit .SI .FPS cPinnedNode = cPinnedNode ∧
    convertEdgeForUnit .SI .FPS cPinnedEdge = cPinnedEdge ∧
    cPinnedNode ∈ (setGlobalUnit cStateB .FPS).nodes ∧
    cPinnedEdge ∈ (setGlobalUnit cStateB .FPS).edges := by
  have h := c6_local_unit_pinning .SI .FPS cPinnedNode cPinnedEdge cStateB .FPS
  exact ⟨h.1 rfl, h.2.1 cPinnedEdgeData rfl rfl,
    h.2.2.1 (by decide) rfl, h.2.2.2 cPinnedEdgeData rfl rfl (by decide)⟩

/-- Coverage of the three-by-six request grid by the defaults of one element. -/
lemma defaultRequestsFor_covers (elId : String) (ety : ElemType) (supply : ℕ)
    (rt : RequestType) (v : String) (hrt : rt ∈ requestTypesList) (hv : v ∈ availableVars) :
    ∃ r ∈ defaultRequestsFor elId ety supply,
      r.elementId = elId ∧ r.elementType = ety ∧ r.requestType = rt ∧
      r.variables = availableVars ∧ v ∈ r.variables := by
  simp only [requestTypesList, List.mem_cons, List.not_mem_nil, or_false] at hrt
  rcases hrt with rfl | rfl | rfl
  · exact ⟨⟨mkReqId supply, elId, ety, .HISTORY, availableVars⟩,
      by simp [defaultRequestsFor], rfl, rfl, rfl, rfl, hv⟩
  · exact ⟨⟨mkReqId (supply + 1), elId, ety, .PLOT, availableVars⟩,
      by simp [defaultRequestsFor], rfl, rfl, rfl, rfl, hv⟩
  · exact ⟨⟨mkReqId (supply + 2), elId, ety, .SPREADSHEET, availableVars⟩,
      by simp [defaultRequestsFor], rfl, rfl, rfl, rfl, hv⟩

/-- Every element scanned by the auto-select pass receives its three default
request types. -/
lemma autoGenRequests_covers (i : String) (t : ElemType) :
    ∀ (els : List (String × ElemType)) (supply : ℕ), (i, t) ∈ els →
      ∀ rt, rt ∈ requestTypesList →
        ∃ r ∈ autoGenRequests els supply,
          r.elementId = i ∧ r.elementType = t ∧ r.requestType = rt ∧
          r.variables = availableVars := by
  intro els
  induction els with
  | nil => intro supply h; cases h
  | cons hd rest ih =>
    intro supply hmem rt hrt
    rcases List.mem_cons.mp hmem with heq | htail
    · obtain ⟨r, hr, h1, h2, h3, h4, _⟩ :=
        defaultRequestsFor_covers i t supply rt "Q" hrt (by simp [availableVars])
      subst heq
      exact ⟨r, by simpa [autoGenRequests] using Or.inl hr, h1, h2, h3, h4⟩
    · obtain ⟨r, hr, hrest⟩ := ih (supply + 3) htail rt hrt
      refine ⟨r, ?_, hrest⟩
      obtain ⟨hd1, hd2⟩ := hd
      simpa [autoGenRequests] using Or.inr hr

/-- C8: creating a node or an edge appends exactly the three default requests
for the fresh element id (drawn from the fresh-id supply) without touching the
existing requests; those defaults cover all of HISTORY, PLOT and SPREADSHEET
with the full six-variable set; and the full auto-select path replaces the
whole request set with the defaults of every current node and edge, each of
which is covered. -/
theorem c8_default_output_requests (s : StoreState) (ty : NodeType) (pos : ℚ × ℚ)
    (src tgt : String) :
    ((addNode s ty pos).outputRequests
        = s.outputRequests ++ defaultRequestsFor (toString s.idCounter) .node s.reqSupply) ∧
    ((onConnect s src tgt).outputRequests
        = s.outputRequests ++ defaultRequestsFor (toString s.idCounter) .edge s.reqSupply) ∧
    ((autoSelectOutputRequests s).outputRequests
        = autoGenRequests
            (s.nodes.map (fun n => (n.id, ElemType.node)) ++ s.edges.map (fun e => (e.id, ElemType.edge)))
            s.reqSupply) ∧
    (∀ elId ety supply, (defaultRequestsFor elId ety supply).map (·.id)
        = [mkReqId supply, mkReqId (supply + 1), mkReqId (supply + 2)]) ∧
    (∀ elId ety supply rt v, rt ∈ requestTypesList → v ∈ availableVars →
      ∃ r ∈ defaultRequestsFor elId ety supply,
        r.elementId = elId ∧ r.elementType = ety ∧ r.requestType = rt ∧
        r.variables = availableVars ∧ v ∈ r.variables) ∧
    (∀ i t, (i, t) ∈ s.nodes.map (fun n => (n.id, ElemType.node)) ++ s.edges.map (fun e => (e.id, ElemType.edge)) →
      ∀ rt, rt ∈ requestTypesList →
        ∃ r ∈ (autoSelectOutputRequests s).outputRequests,
          r.elementId = i ∧ r.elementType = t ∧ r.requestType = rt ∧
          r.variables = availableVars) := by
  refine ⟨rfl, rfl, rfl, fun elId ety supply => rfl,
    fun elId ety supply rt v hrt hv => defaultRequestsFor_covers elId ety supply rt v hrt hv,
    fun i t hmem rt hrt => ?_⟩
  exact autoGenRequests_covers i t _ s.reqSupply hmem rt hrt

/-- C8 (witness): a PLOT default request for element 1 with the Q variable
exists among the generated defaults. -/
theorem c8_default_output_requests_witness :
    ∃ r ∈ defaultRequestsFor "1" .node 0,
      r.elementId = "1" ∧ r.elementType = ElemType.node ∧ r.requestType = RequestType.PLOT ∧
      r.variables = availableVars ∧ "Q" ∈ r.variables :=
  (c8_default_output_requests {} .node (0, 0) "" "").2.2.2.2.1 "1" .node 0 .PLOT "Q"
    (by decide) (by decide)

/-- C7 (counterexample): with an undefined reservoir elevation the RESERVOIR
block emits a zero-filled ELEV line, and with undefined conduit fields the
CONDUIT block still emits LENGTH and DIAM lines rendering NaN and a FRICTION
line rendering the text undefined, so undefined fields are not all omitted. -/
theorem c7_undefined_fields_counterexample :
    cResNoElev.data.reservoirElevation = none ∧
    cCondNoFieldsData.length = none ∧
    cCondNoFieldsData.diameter = none ∧
    cCondNoFieldsData.friction = none ∧
    " ELEV 0.00" ∈ c7lines ∧
    " LENGTH NaN" ∈ c7lines ∧
    " DIAM NaN" ∈ c7lines ∧
    " FRICTION undefined" ∈ c7lines := by
  refine ⟨rfl, rfl, rfl, rfl, ?_, ?_, ?_, ?_⟩ <;> decide

/-- C7 (amended): the guarded optional fields are genuinely omitted — with no
comment, no added-loss coefficients, no segment count and no variable-geometry
flag, the conduit block is exactly the fixed skeleton with no ADDEDLOSS, CPLUS,
CMINUS, NUMSEG or VARIABLE lines — and `toFPS` maps an undefined value to the
empty string; but the unguarded LENGTH, DIAM, CELERITY, FRICTION and reservoir
ELEV fields are always emitted, the latter zero-filled when undefined. -/
theorem c7_undefined_fields_amended (u : UnitSystem) (ty : ConvType)
    (eid src tgt : String) (d : EdgeData) (n : WhamoNode)
    (hv : d.variableFlag = false) (hcp : d.cplus = none) (hcm : d.cminus = none)
    (hns : d.numSegments = none) (hc : d.comment = none) :
    toFPS none u ty = "" ∧
    conduitBlock u ⟨eid, src, tgt, some d⟩ d =
      [ "CONDUIT", " ID " ++ edgeLabel ⟨eid, src, tgt, some d⟩,
        " LENGTH " ++ toFPS (some (jsNumber d.length)) (d.unit.getD u) .length,
        " DIAM " ++ toFPS (some (jsNumber d.diameter)) (d.unit.getD u) .diameter,
        " CELERITY " ++ toFPS (some (jsNumber d.celerity)) (d.unit.getD u) .celerity,
        " FRICTION " ++ tmplNum d.friction,
        "FINISH", "" ] ∧
    (n.data.comment = none → n.data.reservoirElevation = none →
      reservoirBlock u n =
        [ "RESERVOIR", " ID " ++ n.data.label,
          " ELEV " ++ toFPS (some (.num 0)) (n.data.unit.getD u) .elevation,
          " FINISH", "" ]) := by
  refine ⟨rfl, ?_, ?_⟩
  · simp [conduitBlock, hv, hcp, hcm, hns, hc, commentLines]
  · intro h1 h2
    simp [reservoirBlock, h1, h2, commentLines]

/-- C7 (amended, witness): the amended statement evaluated on the concrete
undefined-fields conduit and reservoir. -/
theorem c7_undefined_fields_amended_witness :
    toFPS none .SI .length = "" ∧
    conduitBlock .SI cCondNoFields cCondNoFieldsData =
      [ "CONDUIT", " ID C1", " LENGTH NaN", " DIAM NaN", " CELERITY NaN",
        " FRICTION undefined", "FINISH", "" ] ∧
    reservoirBlock .SI cResNoElev =
      [ "RESERVOIR", " ID HW", " ELEV 0.00", " FINISH", "" ] := by
  have h := c7_undefined_fields_amended .SI .length "2" "1" "9" cCondNoFieldsData cResNoElev
    rfl rfl rfl rfl rfl
  exact ⟨h.1, h.2.1, h.2.2 rfl rfl⟩

/-- C1 (evaluation at the failing input): the scenario of one reservoir, one
conduit and one surge tank built through the store operations under global SI.
The connectivity lines and the reservoir and conduit conversions match the
claim, but the emitted file carries no NODE line for node-number 2 (the surge
tank created by addNode has no elevation field) and the SURGETANK block renders
ELTOP and ELBOTTOM as NaN (addNode stores topElevation and bottomElevation
while the emitter reads tankTop and tankBottom), not the claimed converted
values. -/
theorem c1_scenario_divergence :
    "ELEM HW AT 1" ∈ scenLines ∧
    "ELEM C1 LINK 1 2" ∈ scenLines ∧
    "ELEM ST AT 2" ∈ scenLines ∧
    "NODE 1 ELEV 328.08" ∈ scenLines ∧
    " ELEV 328.08" ∈ scenLines ∧
    " LENGTH 3280.84" ∈ scenLines ∧
    " ELTOP NaN" ∈ scenLines ∧
    " ELBOTTOM NaN" ∈ scenLines ∧
    " ELTOP 393.70" ∉ scenLines ∧
    " ELBOTTOM 262.47" ∉ scenLines ∧
    scenLines =
      [ "c Project Name", "C  SYSTEM CONNECTIVITY", "", "SYSTEM", "",
        "ELEM HW AT 1", "ELEM C1 LINK 1 2", "ELEM ST AT 2", "",
        "NODE 1 ELEV 328.08", "", "FINISH", "", "C ELEMENT PROPERTIES", "",
        "RESERVOIR", " ID HW", " ELEV 328.08", " FINISH", "",
        "CONDUIT", " ID C1", " LENGTH 3280.84", " DIAM 1.64", " CELERITY 3280.84",
        " FRICTION 0.02", " NUMSEG 1", "FINISH", "",
        "SURGETANK ", " ID ST SIMPLE", " ELTOP NaN", " ELBOTTOM NaN", " DIAM 16.40",
        " CELERITY 3280.84", " FRICTION 0.01", "FINISH", "",
        "", "", "SCHEDULE", "", "FINISH", "", "", "C OUTPUT REQUEST", "",
        "HISTORY", " NODE 1 Q HEAD ELEV VEL PRESS PIEZHEAD",
        " ELEM ST Q HEAD ELEV VEL PRESS PIEZHEAD",
        " NODE C1 Q HEAD ELEV VEL PRESS PIEZHEAD", " FINISH", "",
        "PLOT", " NODE 1 Q HEAD ELEV VEL PRESS PIEZHEAD",
        " ELEM ST Q HEAD ELEV VEL PRESS PIEZHEAD",
        " NODE C1 Q HEAD ELEV VEL PRESS PIEZHEAD", " FINISH", "",
        "SPREADSHEET", " NODE 1 Q HEAD ELEV VEL PRESS PIEZHEAD",
        " ELEM ST Q HEAD ELEV VEL PRESS PIEZHEAD",
        " NODE C1 Q HEAD ELEV VEL PRESS PIEZHEAD", " FINISH", "",
        " DISPLAY", "  ALL", " FINISH", "",
        "", "", "C COMPUTATIONAL PARAMETERS", "CONTROL",
        " DTCOMP 0.01 DTOUT 0.1 TMAX 500", "FINISH", "",
        "C EXECUTION CONTROL", "GO", "GOODBYE" ] := by
  refine ⟨?_, ?_, ?_, ?_, ?_, ?_, ?_, ?_, ?_, ?_, ?_⟩ <;> decide

/-- A list has length one with equal optional heads on both sides exactly when
both lists are the same singleton. -/
lemma singleton_pair_iff (inc out : List String) :
    (inc.length = 1 ∧ out.length = 1 ∧ inc.head? = out.head?) ↔
      ∃ l, inc = [l] ∧ out = [l] := by
  constructor
  · rintro ⟨h1, h2, h3⟩
    obtain ⟨x, rfl⟩ := List.length_eq_one.mp h1
    obtain ⟨y, rfl⟩ := List.length_eq_one.mp h2
    simp only [List.head?_cons, Option.some.injEq] at h3
    exact ⟨x, rfl, by rw [h3]⟩
  · rintro ⟨l, rfl, rfl⟩
    simp

/-- C3: a node-number is kept for the elevation listing exactly when it occurs
among the candidate ids and either carries a special element or is not a pure
pass-through (one incoming and one outgoing connectivity reference bearing the
same element label); in particular every special node-number is kept. -/
theorem c3_node_elision_rule (links : List LinkRec) (specials allIds : List String)
    (nId : String) :
    nId ∈ nodesToInclude links specials allIds ↔
      nId ∈ allIds ∧ (nId ∈ specials ∨
        ¬ ∃ l, incomingLabels links nId = [l] ∧ outgoingLabels links nId = [l]) := by
  unfold nodesToInclude
  rw [List.mem_filter]
  refine and_congr_right fun _ => ?_
  unfold includeNode
  by_cases hs : nId ∈ specials
  · simp [hs]
  · rw [if_neg hs]
    simp only [hs, false_or]
    rw [← Bool.decide_and, ← Bool.decide_and, Bool.not_eq_true', decide_eq_false_iff_not, and_assoc]
    exact not_congr (singleton_pair_iff _ _)

/-- C3 (witness): a special node-number with an incoming reference is kept in
the inclusion set. -/
theorem c3_node_elision_rule_witness :
    "2" ∈ nodesToInclude [⟨"C1", "1", "2"⟩] ["2"] ["2"] :=
  (c3_node_elision_rule [⟨"C1", "1", "2"⟩] ["2"] ["2"] "2").mpr
    ⟨by decide, Or.inl (by decide)⟩

/-- The JavaScript-style rounding differs from its argument by at most one
half. -/
lemma abs_jsRound_sub (q : ℚ) : |(jsRound q : ℚ) - q| ≤ 1 / 2 := by
  unfold jsRound
  split
  · rw [abs_sub_comm]
    exact abs_sub_round q
  · have h := abs_sub_round (-q)
    rw [abs_sub_comm] at h
    have e : ((-round (-q) : ℤ) : ℚ) - q = -((round (-q) : ℚ) - (-q)) := by
      push_cast
      ring
    rw [e, abs_neg]
    exact h

/-- Rounding at four decimal places moves a value by at most half an ulp. -/
lemma abs_rnd4_sub (q : ℚ) : |rnd4 q - q| ≤ 1 / 20000 := by
  unfold rnd4
  have e : (jsRound (q * 10000) : ℚ) / 10000 - q
      = ((jsRound (q * 10000) : ℚ) - q * 10000) / 10000 := by ring
  rw [e, abs_div, abs_of_pos (by norm_num : (0 : ℚ) < 10000)]
  calc |(jsRound (q * 10000) : ℚ) - q * 10000| / 10000
      ≤ (1 / 2) / 10000 := by gcongr; exact abs_jsRound_sub _
    _ = 1 / 20000 := by norm_num

/-- The JavaScript-style rounding fixes integers. -/
lemma jsRound_intCast (n : ℤ) : jsRound (n : ℚ) = n := by
  unfold jsRound
  split
  · exact round_intCast n
  · rw [← Int.cast_neg, round_intCast, neg_neg]

/-- Four-decimal rounding is idempotent. -/
lemma rnd4_idem (q : ℚ) : rnd4 (rnd4 q) = rnd4 q := by
  unfold rnd4
  rw [div_mul_cancel₀ _ (by norm_num : (10000 : ℚ) ≠ 0), jsRound_intCast]

/-- With equal units the stored round trip is a single four-decimal rounding. -/
lemma roundtrip_same_unit (v : ℚ) (k : ConvType) (u : UnitSystem) :
    |convertField (convertField v u u k) u u k - v| ≤ 1 / 20000 := by
  have e : ∀ w : ℚ, convertField w u u k = rnd4 w := by
    intro w
    unfold convertField convertValue
    rw [if_pos rfl]
  rw [e, e, rnd4_idem]
  exact abs_rnd4_sub v

/-- C5: the conversion stored by setGlobalUnit (convert, then round to four
decimal places) returns, after converting from A to B and back, a value within
the rounding tolerance of the original: the round-trip error is bounded by one
four-decimal half-ulp amplified by the conversion constant, and in particular
is below one five-hundredth for every quantity kind. -/
theorem c5_unit_roundtrip_tolerance (v : ℚ) (k : ConvType) (A B : UnitSystem) :
    |convertField (convertField v A B k) B A k - v| ≤ (1 + SI_TO_FPS k) / 20000 ∧
    |convertField (convertField v A B k) B A k - v| ≤ 1 / 500 := by
  have hf1 : 1 ≤ SI_TO_FPS k := by cases k <;> norm_num [SI_TO_FPS]
  have hf39 : SI_TO_FPS k ≤ 39 := by cases k <;> norm_num [SI_TO_FPS]
  have hfpos : 0 < SI_TO_FPS k := lt_of_lt_of_le one_pos hf1
  have hfne : SI_TO_FPS k ≠ 0 := ne_of_gt hfpos
  have hmain : |convertField (convertField v A B k) B A k - v| ≤ (1 + SI_TO_FPS k) / 20000 := by
    have hstep : (1 : ℚ) / 20000 ≤ (1 + SI_TO_FPS k) / 20000 := by
      gcongr
      linarith
    cases A <;> cases B
    · exact le_trans (roundtrip_same_unit v k .SI) hstep
    · -- SI to FPS and back: the return division shrinks the first rounding error
      have e1 : convertField v .SI .FPS k = rnd4 (v * SI_TO_FPS k) := rfl
      have e2 : ∀ w : ℚ, convertField w .FPS .SI k = rnd4 (w / SI_TO_FPS k) := fun w => rfl
      rw [e1, e2]
      set f := SI_TO_FPS k with hfdef
      set w := rnd4 (v * f) with hwdef
      have hsplit : w / f - v = (w - v * f) / f := by
        field_simp
        ring
      calc |rnd4 (w / f) - v|
          ≤ |rnd4 (w / f) - w / f| + |w / f - v| := abs_sub_le _ _ _
        _ ≤ 1 / 20000 + |w / f - v| := by gcongr; exact abs_rnd4_sub _
        _ = 1 / 20000 + |w - v * f| / f := by rw [hsplit, abs_div, abs_of_pos hfpos]
        _ ≤ 1 / 20000 + (1 / 20000) / f := by
            gcongr
            exact abs_rnd4_sub _
        _ ≤ 1 / 20000 + 1 / 20000 := by
            have h2 : (1 : ℚ) / 20000 / f ≤ 1 / 20000 := div_le_self (by norm_num) hf1
            linarith
        _ ≤ (1 + f) / 20000 := by rw [add_div]; gcongr
    · -- FPS to SI and back: the return multiplication amplifies the error by f
      have e1 : convertField v .FPS .SI k = rnd4 (v / SI_TO_FPS k) := rfl
      have e2 : ∀ w : ℚ, convertField w .SI .FPS k = rnd4 (w * SI_TO_FPS k) := fun w => rfl
      rw [e1, e2]
      set f := SI_TO_FPS k with hfdef
      set w := rnd4 (v / f) with hwdef
      have hsplit : w * f - v = (w - v / f) * f := by
        field_simp
      calc |rnd4 (w * f) - v|
          ≤ |rnd4 (w * f) - w * f| + |w * f - v| := abs_sub_le _ _ _
        _ ≤ 1 / 20000 + |w * f - v| := by gcongr; exact abs_rnd4_sub _
        _ = 1 / 20000 + |w - v / f| * f := by rw [hsplit, abs_mul, abs_of_pos hfpos]
        _ ≤ 1 / 20000 + (1 / 20000) * f := by
            gcongr
            exact abs_rnd4_sub _
        _ = (1 + f) / 20000 := by ring
    · exact le_trans (roundtrip_same_unit v k .FPS) hstep
  refine ⟨hmain, le_trans hmain ?_⟩
  rw [div_le_div_iff₀ (by norm_num) (by norm_num)]
  linarith

lemma addSpecial_visitedN (st : TravSt) (i : String) :
    (addSpecial st i).visitedN = st.visitedN := by
  unfold addSpecial
  split <;> rfl

lemma addSpecial_visitedE (st : TravSt) (i : String) :
    (addSpecial st i).visitedE = st.visitedE := by
  unfold addSpecial
  split <;> rfl

lemma addSpecial_conn (st : TravSt) (i : String) :
    (addSpecial st i).conn = st.conn := by
  unfold addSpecial
  split <;> rfl

lemma travMeasure_congr {nodes : List WhamoNode} {edges : List WhamoEdge}
    {st st' : TravSt} (h : st.visitedN = st'.visitedN) :
    travMeasure nodes edges st = travMeasure nodes edges st' := by
  unfold travMeasure
  rw [h]

lemma travMeasure_le_of_subset {nodes : List WhamoNode} {edges : List WhamoEdge}
    {st st' : TravSt} (h : st.visitedN ⊆ st'.visitedN) :
    travMeasure nodes edges st' ≤ travMeasure nodes edges st := by
  apply Finset.card_le_card
  intro i hi
  rw [Finset.mem_filter] at hi ⊢
  exact ⟨hi.1, fun hm => hi.2 (h hm)⟩

lemma travMeasure_mark {nodes : List WhamoNode} {edges : List WhamoEdge}
    {st : TravSt} {x : String} (hx : x ∈ idUniverse nodes edges)
    (hnx : x ∉ st.visitedN) :
    travMeasure nodes edges { st with visitedN := st.visitedN ++ [x] }
      < travMeasure nodes edges st := by
  apply Finset.card_lt_card
  rw [Finset.ssubset_iff_of_subset]
  · refine ⟨x, ?_, ?_⟩
    · rw [Finset.mem_filter]
      exact ⟨List.mem_toFinset.mpr hx, hnx⟩
    · rw [Finset.mem_filter]
      intro hmem
      exact hmem.2 (by simp)
  · intro i hi
    rw [Finset.mem_filter] at hi ⊢
    refine ⟨hi.1, fun hm => hi.2 ?_⟩
    simp only [List.mem_append, List.mem_singleton]
    exact Or.inl hm

lemma nodup_snoc {α : Type} [DecidableEq α] {l : List α} {x : α}
    (h : l.Nodup) (hx : x ∉ l) : (l ++ [x]).Nodup := by
  rw [List.nodup_append]
  exact ⟨h, List.nodup_singleton x, by
    intro a ha hb
    rw [List.mem_singleton] at hb
    subst hb
    exact hx ha⟩

lemma goEdges_mono {nodes : List WhamoNode} {fromId : String}
    {step : TravSt → String → Option TravSt} (hstep : stepMono step) :
    ∀ (l : List WhamoEdge) (st st' : TravSt),
      goEdges nodes fromId step l st = some st' →
      st.visitedN ⊆ st'.visitedN ∧ st.visitedE ⊆ st'.visitedE := by
  intro l
  induction l with
  | nil =>
    intro st st' h
    simp only [goEdges, Option.some.injEq] at h
    subst h
    exact ⟨List.Subset.refl _, List.Subset.refl _⟩
  | cons e rest ih =>
    intro st st' h
    simp only [goEdges] at h
    by_cases hv : e.id ∈ st.visitedE
    · rw [if_pos hv] at h
      exact ih st st' h
    · rw [if_neg hv] at h
      split at h
      · cases h
      · next st2 heq =>
        have h1 := hstep _ _ _ heq
        have h2 := ih _ _ h
        refine ⟨List.Subset.trans ?_ (List.Subset.trans h1.1 h2.1),
          List.Subset.trans ?_ (List.Subset.trans h1.2 h2.2)⟩
        · exact List.Subset.refl _
        · exact List.subset_append_left _ _

lemma goEdges_inv {nodes : List WhamoNode} {fromId : String}
    {step : TravSt → String → Option TravSt} (hstep : stepInv step) :
    ∀ (l : List WhamoEdge) (st st' : TravSt),
      goEdges nodes fromId step l st = some st' → travInv st → travInv st' := by
  intro l
  induction l with
  | nil =>
    intro st st' h hinv
    simp only [goEdges, Option.some.injEq] at h
    subst h
    exact hinv
  | cons e rest ih =>
    intro st st' h hinv
    simp only [goEdges] at h
    by_cases hv : e.id ∈ st.visitedE
    · rw [if_pos hv] at h
      exact ih st st' h hinv
    · rw [if_neg hv] at h
      split at h
      · cases h
      · next st2 heq =>
        obtain ⟨hN, hE, hL, hA⟩ := hinv
        refine ih _ _ h (hstep _ _ _ heq ⟨hN, nodup_snoc hE hv, ?_, ?_⟩)
        · have hstepL : countLinks (markEdge nodes fromId e st).conn
              = countLinks st.conn + 1 := by
            simp [markEdge, countLinks, List.countP_append]
          rw [hstepL, hL]
          simp [markEdge]
        · have hstepA : countAts (markEdge nodes fromId e st).conn = countAts st.conn := by
            simp [markEdge, countAts, List.countP_append]
          rw [hstepA]
          exact hA

lemma goEdges_isSome {nodes : List WhamoNode} {edges : List WhamoEdge} {fromId : String}
    {step : TravSt → String → Option TravSt} {bound : ℕ}
    (hmono : stepMono step) (hsome : stepSome nodes edges step bound) :
    ∀ (l : List WhamoEdge) (st : TravSt), (∀ e ∈ l, e ∈ edges) →
      travMeasure nodes edges st < bound →
      (goEdges nodes fromId step l st).isSome := by
  intro l
  induction l with
  | nil =>
    intro st _ _
    simp [goEdges]
  | cons e rest ih =>
    intro st hsub hmeas
    simp only [goEdges]
    by_cases hv : e.id ∈ st.visitedE
    · rw [if_pos hv]
      exact ih st (fun x hx => hsub x (List.mem_cons_of_mem e hx)) hmeas
    · rw [if_neg hv]
      have htgt : e.target ∈ idUniverse nodes edges := by
        unfold idUniverse
        refine List.mem_append_right _ ?_
        exact List.mem_map.mpr ⟨e, hsub e (List.mem_cons_self e rest), rfl⟩
      have h1 := hsome (markEdge nodes fromId e st) e.target htgt (by exact hmeas)
      obtain ⟨st2, heq⟩ := Option.isSome_iff_exists.mp h1
      rw [heq]
      exact ih st2 (fun x hx => hsub x (List.mem_cons_of_mem e hx))
        (lt_of_le_of_lt (travMeasure_le_of_subset (hmono _ _ _ heq).1) hmeas)

lemma pushElemAt_visitedN (st : TravSt) (l a : String) :
    (pushElemAt st l a).visitedN = st.visitedN := by
  unfold pushElemAt
  rw [addSpecial_visitedN]

lemma pushElemAt_visitedE (st : TravSt) (l a : String) :
    (pushElemAt st l a).visitedE = st.visitedE := by
  unfold pushElemAt
  rw [addSpecial_visitedE]

lemma pushElemAt_conn (st : TravSt) (l a : String) :
    (pushElemAt st l a).conn = st.conn ++ [.elemAt l a] := by
  unfold pushElemAt
  rw [addSpecial_conn]

lemma pushJunction_visitedN (st : TravSt) (a : String) :
    (pushJunction st a).visitedN = st.visitedN := by
  unfold pushJunction
  rw [addSpecial_visitedN]

lemma pushJunction_visitedE (st : TravSt) (a : String) :
    (pushJunction st a).visitedE = st.visitedE := by
  unfold pushJunction
  rw [addSpecial_visitedE]

lemma pushJunction_conn (st : TravSt) (a : String) :
    (pushJunction st a).conn = st.conn ++ [.blank, .junctionAt a, .blank] := by
  unfold pushJunction
  rw [addSpecial_conn]

/-- The visit-state chain of one unvisited node always has exactly the new
node appended to the visited set. -/
lemma visitChain_visitedN (st : TravSt) (m lbl actual : String) (c1 c2 : Prop)
    [Decidable c1] [Decidable c2] :
    (if c2 then
        pushJunction (if c1 then pushElemAt (markNode st m) lbl actual else markNode st m) actual
      else (if c1 then pushElemAt (markNode st m) lbl actual else markNode st m)).visitedN
      = st.visitedN ++ [m] := by
  split <;> split <;>
    simp [pushJunction_visitedN, pushElemAt_visitedN, markNode]

/-- The visit-state chain never touches the visited edge set. -/
lemma visitChain_visitedE (st : TravSt) (m lbl actual : String) (c1 c2 : Prop)
    [Decidable c1] [Decidable c2] :
    (if c2 then
        pushJunction (if c1 then pushElemAt (markNode st m) lbl actual else markNode st m) actual
      else (if c1 then pushElemAt (markNode st m) lbl actual else markNode st m)).visitedE
      = st.visitedE := by
  split <;> split <;>
    simp [pushJunction_visitedE, pushElemAt_visitedE, markNode]

/-- The visit-state chain pushes no LINK lines. -/
lemma visitChain_countLinks (st : TravSt) (m lbl actual : String) (c1 c2 : Prop)
    [Decidable c1] [Decidable c2] :
    countLinks (if c2 then
        pushJunction (if c1 then pushElemAt (markNode st m) lbl actual else markNode st m) actual
      else (if c1 then pushElemAt (markNode st m) lbl actual else markNode st m)).conn
      = countLinks st.conn := by
  split <;> split <;>
    simp [pushJunction_conn, pushElemAt_conn, markNode, countLinks, List.countP_append]

/-- The visit-state chain pushes at most one ELEM AT line. -/
lemma visitChain_countAts (st : TravSt) (m lbl actual : String) (c1 c2 : Prop)
    [Decidable c1] [Decidable c2] :
    countAts (if c2 then
        pushJunction (if c1 then pushElemAt (markNode st m) lbl actual else markNode st m) actual
      else (if c1 then pushElemAt (markNode st m) lbl actual else markNode st m)).conn
      ≤ countAts st.conn + 1 := by
  split <;> split <;>
    simp [pushJunction_conn, pushElemAt_conn, markNode, countAts, List.countP_append]

/-- The traversal only grows the visited sets. -/
lemma traverseF_mono (nodes : List WhamoNode) (edges : List WhamoEdge) :
    ∀ fuel, stepMono (traverseF nodes edges fuel) := by
  intro fuel
  induction fuel with
  | zero =>
    intro s m s' h
    simp only [traverseF] at h
    split at h
    · rw [Option.some.injEq] at h
      subst h
      exact ⟨List.Subset.refl _, List.Subset.refl _⟩
    · cases h
  | succ fuel ih =>
    intro s m s' h
    simp only [traverseF] at h
    split at h
    · rw [Option.some.injEq] at h
      subst h
      exact ⟨List.Subset.refl _, List.Subset.refl _⟩
    · split at h
      · rw [Option.some.injEq] at h
        subst h
        exact ⟨List.subset_append_left _ _, List.Subset.refl _⟩
      · next node hfind =>
        split at h
        · have hm := goEdges_mono ih _ _ _ h
          refine ⟨List.Subset.trans ?_ hm.1, List.Subset.trans ?_ hm.2⟩
          · rw [visitChain_visitedN]
            exact List.subset_append_left _ _
          · rw [visitChain_visitedE]
            exact List.Subset.refl _
        · rw [Option.some.injEq] at h
          subst h
          constructor
          · have hvn := visitChain_visitedN s m node.data.label (actualNodeId node)
              (node.type = .reservoir ∨ node.type = .surgeTank ∨ node.type = .flowBoundary) False
            simp only [if_false] at hvn
            rw [hvn]
            exact List.subset_append_left _ _
          · have hve := visitChain_visitedE s m node.data.label (actualNodeId node)
              (node.type = .reservoir ∨ node.type = .surgeTank ∨ node.type = .flowBoundary) False
            simp only [if_false] at hve
            rw [hve]
            exact List.Subset.refl _

lemma travMeasure_eq_of_visitedN {nodes : List WhamoNode} {edges : List WhamoEdge}
    {st : TravSt} {l : List String} (h : st.visitedN = l) :
    travMeasure nodes edges st
      = ((idUniverse nodes edges).toFinset.filter (fun i => i ∉ l)).card := by
  unfold travMeasure
  rw [h]

/-- With fuel above the unvisited-id measure the traversal of one node always
succeeds. -/
lemma traverseF_isSome (nodes : List WhamoNode) (edges : List WhamoEdge) :
    ∀ fuel, stepSome nodes edges (traverseF nodes edges fuel) fuel := by
  intro fuel
  induction fuel with
  | zero =>
    intro s m _ hmeas
    exact absurd hmeas (Nat.not_lt_zero _)
  | succ fuel ih =>
    intro s m hU hmeas
    simp only [traverseF]
    split
    · rfl
    · next hv =>
      have hmark : travMeasure nodes edges (markNode s m) < fuel := by
        have h1 : travMeasure nodes edges (markNode s m) < travMeasure nodes edges s :=
          travMeasure_mark hU hv
        omega
      split
      · rfl
      · next node hfind =>
        split
        · refine goEdges_isSome (traverseF_mono nodes edges fuel) ih _ _
            (fun e he => (List.mem_filter.mp he).1) ?_
          rw [travMeasure_eq_of_visitedN (visitChain_visitedN s m node.data.label
            (actualNodeId node) _ _)]
          exact hmark
        · rfl

/-- The traversal of one node preserves the visited-once invariant. -/
lemma traverseF_inv (nodes : List WhamoNode) (edges : List WhamoEdge) :
    ∀ fuel, stepInv (traverseF nodes edges fuel) := by
  intro fuel
  induction fuel with
  | zero =>
    intro s m s' h hinv
    simp only [traverseF] at h
    split at h
    · rw [Option.some.injEq] at h
      subst h
      exact hinv
    · cases h
  | succ fuel ih =>
    intro s m s' h hinv
    obtain ⟨hN, hE, hL, hA⟩ := hinv
    simp only [traverseF] at h
    split at h
    · rw [Option.some.injEq] at h
      subst h
      exact ⟨hN, hE, hL, hA⟩
    · next hv =>
      have hmarkInv : travInv (markNode s m) := by
        refine ⟨nodup_snoc hN hv, hE, hL, ?_⟩
        refine le_trans hA ?_
        simp [markNode]
      split at h
      · rw [Option.some.injEq] at h
        subst h
        exact hmarkInv
      · next node hfind =>
        split at h
        · refine goEdges_inv ih _ _ _ h ⟨?_, ?_, ?_, ?_⟩
          · rw [visitChain_visitedN]
            exact nodup_snoc hN hv
          · rw [visitChain_visitedE]
            exact hE
          · rw [visitChain_countLinks, visitChain_visitedE]
            exact hL
          · rw [visitChain_visitedN]
            calc countAts (if _ then _ else _ : TravSt).conn
                ≤ countAts s.conn + 1 :=
                  visitChain_countAts s m node.data.label (actualNodeId node) _ _
              _ ≤ s.visitedN.length + 1 := by omega
              _ = (s.visitedN ++ [m]).length := by simp
        · rw [Option.some.injEq] at h
          subst h
          split
          · refine ⟨?_, ?_, ?_, ?_⟩
            · rw [pushElemAt_visitedN]
              exact nodup_snoc hN hv
            · rw [pushElemAt_visitedE]
              exact hE
            · rw [pushElemAt_visitedE]
              have hc : countLinks (pushElemAt (markNode s m) node.data.label
                  (actualNodeId node)).conn = countLinks s.conn := by
                rw [pushElemAt_conn]
                simp [markNode, countLinks, List.countP_append]
              rw [hc]
              exact hL
            · rw [pushElemAt_visitedN]
              have hc : countAts (pushElemAt (markNode s m) node.data.label
                  (actualNodeId node)).conn = countAts s.conn + 1 := by
                rw [pushElemAt_conn]
                simp [markNode, countAts, List.countP_append]
              rw [hc]
              calc countAts s.conn + 1 ≤ s.visitedN.length + 1 := by omega
                _ = (markNode s m).visitedN.length := by simp [markNode]
          · exact hmarkInv

/-- Folding the traversal over the reservoir roots succeeds and preserves the
invariant. -/
lemma foldRoots_aux (nodes : List WhamoNode) (edges : List WhamoEdge) :
    ∀ (roots : List WhamoNode), (∀ r ∈ roots, r.id ∈ idUniverse nodes edges) →
      ∀ st : TravSt,
        travMeasure nodes edges st < travFuel nodes edges → travInv st →
        ∃ st', roots.foldl
            (fun acc r => acc.bind
              (fun st => traverseF nodes edges (travFuel nodes edges) st r.id))
            (some st) = some st' ∧ travInv st' := by
  intro roots
  induction roots with
  | nil =>
    intro _ st _ hi
    exact ⟨st, rfl, hi⟩
  | cons r rest ih =>
    intro hroots st hm hi
    have h1 : (traverseF nodes edges (travFuel nodes edges) st r.id).isSome :=
      traverseF_isSome nodes edges _ st r.id (hroots r (List.mem_cons_self r rest)) hm
    obtain ⟨st1, heq⟩ := Option.isSome_iff_exists.mp h1
    have hm1 : travMeasure nodes edges st1 < travFuel nodes edges :=
      lt_of_le_of_lt
        (travMeasure_le_of_subset (traverseF_mono nodes edges _ _ _ _ heq).1) hm
    have hi1 : travInv st1 := traverseF_inv nodes edges _ _ _ _ heq hi
    obtain ⟨st', hfold, hinv'⟩ :=
      ih (fun x hx => hroots x (List.mem_cons_of_mem r hx)) st1 hm1 hi1
    refine ⟨st', ?_, hinv'⟩
    rw [List.foldl_cons]
    simpa [heq] using hfold

/-- C9: for every graph the reservoir-rooted connectivity traversal terminates
(the fuel chosen by runTraversal always suffices), and the visited node and
edge sets hold no duplicates, with exactly one LINK line per visited edge and
at most one ELEM AT line per visited node. -/
theorem c9_traversal_terminates_visits_once (nodes : List WhamoNode) (edges : List WhamoEdge) :
    (runTraversal nodes edges).isSome ∧
    (∀ st, runTraversal nodes edges = some st →
      st.visitedN.Nodup ∧ st.visitedE.Nodup ∧
      countLinks st.conn = st.visitedE.length ∧
      countAts st.conn ≤ st.visitedN.length) := by
  have hm0 : travMeasure nodes edges {} < travFuel nodes edges := by
    have h1 : travMeasure nodes edges {} ≤ (idUniverse nodes edges).toFinset.card :=
      Finset.card_filter_le _ _
    have h2 := List.toFinset_card_le (idUniverse nodes edges)
    have h3 : (idUniverse nodes edges).length = nodes.length + edges.length := by
      simp [idUniverse]
    unfold travFuel
    omega
  have hroots : ∀ r ∈ nodes.filter (fun n => decide (n.type = .reservoir)),
      r.id ∈ idUniverse nodes edges := by
    intro r hr
    exact List.mem_append_left _ (List.mem_map.mpr ⟨r, (List.mem_filter.mp hr).1, rfl⟩)
  have hinv0 : travInv {} := ⟨List.nodup_nil, List.nodup_nil, rfl, Nat.le_refl 0⟩
  obtain ⟨st', heq, hinv⟩ := foldRoots_aux nodes edges _ hroots {} hm0 hinv0
  constructor
  · unfold runTraversal
    rw [heq]
    rfl
  · intro st hst
    unfold runTraversal at hst
    rw [heq, Option.some.injEq] at hst
    subst hst
    exact hinv

/-- C9 (witness): on a two-node cyclic graph the traversal terminates with
each node and edge visited once. -/
theorem c9_traversal_terminates_visits_once_witness :
    (runTraversal [wNodeR, wNodeS] [wEdgeF, wEdgeB]).isSome ∧
    wTravResult.visitedN.Nodup ∧ wTravResult.visitedE.Nodup ∧
    countLinks wTravResult.conn = wTravResult.visitedE.length ∧
    countAts wTravResult.conn ≤ wTravResult.visitedN.length := by
  have h := c9_traversal_terminates_visits_once [wNodeR, wNodeS] [wEdgeF, wEdgeB]
  have h2 := h.2 wTravResult (by decide)
  exact ⟨h.1, h2.1, h2.2.1, h2.2.2.1, h2.2.2.2⟩

end Whamo
